import Mathlib

/-!
Verification development for the ai-reviewer VS Code extension
(src/ai-copilot-reviewer/src/extension.js).

The development shallowly embeds the core of the extension:
the response parser (regex extraction + JSON.parse + quality filter),
the coordinate mapper (line clamping), the diagnostic reconciler
(replace / append / remove-on-fix on the per-document diagnostic
collection), the applyAIFix response access path, and the chat
session event handling.

Modelling conventions:
* Parsed JSON values are modelled by the inductive type `Json`.
  JavaScript numbers are modelled as rationals; NaN is modelled by
  `Option` (`none` = NaN) where it can arise from coercions.  The
  inputs exercised by the theorems below only involve integral
  numbers, where rational and IEEE double arithmetic agree.
* `undefined` is modelled as `Option.none` at property-access results.
* Exceptions are modelled with `Except Unit`; a JavaScript
  try/catch block is modelled by matching on the `Except` value.
* Asynchronous code is modelled by splitting a request into separate
  events (start, completion, failure), reflecting the cooperative
  single-threaded scheduling described by the repository.
-/

/-- A JSON value as produced by JSON.parse (extension.js parses model
output and endpoint responses into such values). -/
inductive Json where
  | null : Json
  | bool (b : Bool) : Json
  | num (q : ℚ) : Json
  | str (s : String) : Json
  | arr (elems : List Json) : Json
  | obj (fields : List (String × Json)) : Json

/-- Property lookup on a JavaScript object built by JSON.parse: with
duplicate keys, the last occurrence wins. -/
def objLookup (n : String) (fs : List (String × Json)) : Option Json :=
  fs.foldl (fun acc p => if p.1 = n then some p.2 else acc) none

/-- Named-property access `v[n]` on a non-null, non-undefined value.
Arrays and strings expose `length`; other named properties used by the
code (`line`, `message`, `severity`, `candidates`, `content`, `parts`,
`text`) are `undefined` (`none`) on non-objects. -/
def getPropW (v : Json) (n : String) : Option Json :=
  match v with
  | Json.obj fs => objLookup n fs
  | Json.arr xs => if n = ("length") then some (Json.num xs.length) else none
  | Json.str s => if n = ("length") then some (Json.num s.length) else none
  | _ => none

/-- Property access `v.n` as an effectful operation: reading a property
of `undefined` or `null` throws a TypeError. -/
def getPropE (v : Option Json) (n : String) : Except Unit (Option Json) :=
  match v with
  | none => Except.error ()
  | some Json.null => Except.error ()
  | some w => Except.ok (getPropW w n)

/-- JavaScript truthiness of a value (`none` = undefined). -/
def truthy : Option Json → Bool
  | none => false
  | some Json.null => false
  | some (Json.bool b) => b
  | some (Json.num q) => decide (q ≠ 0)
  | some (Json.str s) => decide (s ≠ "")
  | some (Json.arr _) => true
  | some (Json.obj _) => true

/-- JavaScript `v || d` (used as `issue.line || 1` in extension.js
lines 254 and 1110): the left operand when truthy, otherwise `d`. -/
def jsOr (v : Option Json) (d : Json) : Json :=
  match v with
  | some w => if truthy (some w) then w else d
  | none => d

/-- Span of leading decimal digits. -/
def takeDigits : List Char → List Char × List Char
  | [] => ([], [])
  | c :: cs =>
      if c.isDigit then
        let p := takeDigits cs
        (c :: p.1, p.2)
      else ([], c :: cs)

/-- Numeric value of a digit string. -/
def digitsToNat (ds : List Char) : ℕ :=
  ds.foldl (fun a c => 10 * a + (c.toNat - 48)) 0

/-- Exponent part of a numeric literal (`e`/`E`, optional sign,
digits); returns the multiplier it denotes and the rest of the input.
Returns `(1, cs)` when no exponent part starts here. -/
def parseExpPart (cs : List Char) : Option (ℚ × List Char) :=
  match cs with
  | [] => some (1, [])
  | e :: r =>
      if e = 'e' ∨ e = 'E' then
        let sr : Bool × List Char :=
          match r with
          | '+' :: r2 => (false, r2)
          | '-' :: r2 => (true, r2)
          | _ => (false, r)
        let p := takeDigits sr.2
        if p.1 = [] then none
        else
          let k := digitsToNat p.1
          some (if sr.1 then ((10 : ℚ) ^ k)⁻¹ else (10 : ℚ) ^ k, p.2)
      else some (1, cs)

/-- Integer-to-decimal-string helper for JavaScript number display.
All numbers reaching display positions in the theorems below are
integers, where this agrees with JavaScript number formatting;
non-integral rationals are shown as `num/den` (a corner no theorem
depends on, since IEEE doubles would need decimal formatting there). -/
def ratToJsString (q : ℚ) : String :=
  if q.den = 1 then toString q.num else toString q.num ++ ("/") ++ toString q.den

mutual

/-- JavaScript `String(v)` / template-literal conversion of a value,
as used in the diagnostic message `` `🤖 ${issue.message}` `` in
extension.js lines 266 and 1122. -/
def jsToDisplay : Json → String
  | Json.null => "null"
  | Json.bool b => if b then "true" else "false"
  | Json.num q => ratToJsString q
  | Json.str s => s
  | Json.arr xs => arrToDisplay xs
  | Json.obj _ => "[object Object]"

/-- `Array.prototype.toString`: elements joined with commas, where a
null element displays as the empty string. -/
def arrToDisplay : List Json → String
  | [] => ""
  | [Json.null] => ""
  | [x] => jsToDisplay x
  | Json.null :: xs => (",") ++ arrToDisplay xs
  | x :: xs => jsToDisplay x ++ (",") ++ arrToDisplay xs

end

/-- Display of a possibly-undefined value (template literals show
`undefined` for undefined). -/
def jsToDisplayOpt : Option Json → String
  | none => "undefined"
  | some v => jsToDisplay v

/-- JavaScript ToNumber on a (whitespace-trimmed) string body:
optional sign, digits, optional fraction, optional exponent; the empty
string converts to 0 and anything else to NaN (`none`).  Hexadecimal
and Infinity literals, which no theorem below touches, also map to
`none`. -/
def jsStrBodyToNum (cs : List Char) : Option ℚ :=
  if cs = [] then some 0
  else
    let sgn : Bool × List Char :=
      match cs with
      | '-' :: r => (true, r)
      | '+' :: r => (false, r)
      | _ => (false, cs)
    let ip := takeDigits sgn.2
    let fp : List Char × List Char :=
      match ip.2 with
      | '.' :: r => takeDigits r
      | _ => ([], ip.2)
    if ip.1 = [] ∧ fp.1 = [] then none
    else
      match parseExpPart fp.2 with
      | none => none
      | some (m, rest) =>
          if rest = [] then
            let mag : ℚ :=
              ((digitsToNat ip.1 : ℚ) + (digitsToNat fp.1 : ℚ) / (10 : ℚ) ^ fp.1.length) * m
            some (if sgn.1 then -mag else mag)
          else none

/-- JavaScript ToNumber on a string value. -/
def strToNumJs (s : String) : Option ℚ :=
  jsStrBodyToNum s.trim.toList

/-- JavaScript ToNumber coercion (`none` = NaN), applied by the `-`
operator in `(issue.line || 1) - 1`.  Arrays coerce through their
join-with-commas string; plain objects coerce through the string
`[object Object]`, hence NaN. -/
def toNumber : Json → Option ℚ
  | Json.null => some 0
  | Json.bool b => some (if b then 1 else 0)
  | Json.num q => some q
  | Json.str s => strToNumJs s
  | Json.arr xs => strToNumJs (arrToDisplay xs)
  | Json.obj _ => strToNumJs ("[object Object]")

/-- JSON insignificant whitespace. -/
def skipWs : List Char → List Char
  | [] => []
  | c :: cs =>
      if c = ' ' ∨ c = '\t' ∨ c = '\n' ∨ c = '\r' then skipWs cs else c :: cs

/-- Hexadecimal digit value. -/
def hexDigitVal (c : Char) : Option ℕ :=
  if '0' ≤ c ∧ c ≤ '9' then some (c.toNat - 48)
  else if 'a' ≤ c ∧ c ≤ 'f' then some (c.toNat - 87)
  else if 'A' ≤ c ∧ c ≤ 'F' then some (c.toNat - 55)
  else none

/-- Body of a JSON string literal (after the opening quote), with the
standard escapes; fueled for termination.  Unescaped control
characters are rejected, as JSON.parse rejects them. -/
def parseStringBody : ℕ → List Char → Option (List Char × List Char)
  | 0, _ => none
  | _, [] => none
  | Nat.succ fuel, c :: rest =>
      if c = '"' then some ([], rest)
      else if c = '\\' then
        match rest with
        | [] => none
        | e :: r =>
            let echar : Option (Char × List Char) :=
              if e = '"' then some ('"', r)
              else if e = '\\' then some ('\\', r)
              else if e = '/' then some ('/', r)
              else if e = 'b' then some (Char.ofNat 8, r)
              else if e = 'f' then some (Char.ofNat 12, r)
              else if e = 'n' then some ('\n', r)
              else if e = 'r' then some ('\r', r)
              else if e = 't' then some ('\t', r)
              else if e = 'u' then
                match r with
                | a :: b :: c2 :: d :: r2 =>
                    match hexDigitVal a, hexDigitVal b, hexDigitVal c2, hexDigitVal d with
                    | some x, some y, some z, some w =>
                        some (Char.ofNat (4096 * x + 256 * y + 16 * z + w), r2)
                    | _, _, _, _ => none
                | _ => none
              else none
            match echar with
            | none => none
            | some (ch, r2) =>
                match parseStringBody fuel r2 with
                | none => none
                | some (cs2, rest2) => some (ch :: cs2, rest2)
      else if c.toNat < 32 then none
      else
        match parseStringBody fuel rest with
        | none => none
        | some (cs2, rest2) => some (c :: cs2, rest2)

/-- A JSON number literal: optional minus, integer part without
leading zeros, optional fraction, optional exponent. -/
def parseJsonNumber (cs0 : List Char) : Option (Json × List Char) :=
  let sgn : Bool × List Char :=
    match cs0 with
    | '-' :: r => (true, r)
    | _ => (false, cs0)
  let ip := takeDigits sgn.2
  if ip.1 = [] then none
  else if 1 < ip.1.length ∧ ip.1.head? = some '0' then none
  else
    let fp : Option (List Char × List Char) :=
      match ip.2 with
      | '.' :: r =>
          let p := takeDigits r
          if p.1 = [] then none else some p
      | _ => some ([], ip.2)
    match fp with
    | none => none
    | some (fds, cs3) =>
        match parseExpPart cs3 with
        | none => none
        | some (m, cs4) =>
            let mag : ℚ :=
              ((digitsToNat ip.1 : ℚ) + (digitsToNat fds : ℚ) / (10 : ℚ) ^ fds.length) * m
            some (Json.num (if sgn.1 then -mag else mag), cs4)

mutual

/-- One JSON value (leading whitespace allowed), fueled for
termination; returns the value and the unconsumed input. -/
def parseVal : ℕ → List Char → Option (Json × List Char)
  | 0, _ => none
  | Nat.succ fuel, cs0 =>
      match skipWs cs0 with
      | [] => none
      | c :: rest =>
          if c = '[' then
            match skipWs rest with
            | ']' :: r => some (Json.arr [], r)
            | cs1 => parseElems fuel cs1 []
          else if c = '\x7b' then
            match skipWs rest with
            | '\x7d' :: r => some (Json.obj [], r)
            | cs1 => parseMembers fuel cs1 []
          else if c = '"' then
            match parseStringBody (Nat.succ fuel) rest with
            | some (cs2, r) => some (Json.str (String.mk cs2), r)
            | none => none
          else if c = 't' then
            match rest with
            | 'r' :: 'u' :: 'e' :: r => some (Json.bool true, r)
            | _ => none
          else if c = 'f' then
            match rest with
            | 'a' :: 'l' :: 's' :: 'e' :: r => some (Json.bool false, r)
            | _ => none
          else if c = 'n' then
            match rest with
            | 'u' :: 'l' :: 'l' :: r => some (Json.null, r)
            | _ => none
          else parseJsonNumber (c :: rest)

/-- Comma-separated array elements up to the closing bracket. -/
def parseElems : ℕ → List Char → List Json → Option (Json × List Char)
  | 0, _, _ => none
  | Nat.succ fuel, cs, acc =>
      match parseVal fuel cs with
      | none => none
      | some (v, rest) =>
          match skipWs rest with
          | ',' :: r => parseElems fuel r (acc ++ [v])
          | ']' :: r => some (Json.arr (acc ++ [v]), r)
          | _ => none

/-- Comma-separated object members up to the closing brace. -/
def parseMembers : ℕ → List Char → List (String × Json) → Option (Json × List Char)
  | 0, _, _ => none
  | Nat.succ fuel, cs, acc =>
      match skipWs cs with
      | '"' :: r =>
          match parseStringBody (Nat.succ fuel) r with
          | none => none
          | some (kcs, r2) =>
              match skipWs r2 with
              | ':' :: r3 =>
                  match parseVal fuel r3 with
                  | none => none
                  | some (v, r4) =>
                      match skipWs r4 with
                      | ',' :: r5 => parseMembers fuel r5 (acc ++ [(String.mk kcs, v)])
                      | '\x7d' :: r5 => some (Json.obj (acc ++ [(String.mk kcs, v)]), r5)
                      | _ => none
              | _ => none
      | _ => none

end

/-- `JSON.parse`: a single JSON value with only whitespace around it,
or failure (which the JavaScript code observes as a thrown
SyntaxError). -/
def jsonParse (s : String) : Option Json :=
  match parseVal (s.length + 16) s.toList with
  | some (v, rest) => if skipWs rest = [] then some v else none
  | none => none

/-- Index of the first occurrence of a character (the scan position of
a JavaScript regex engine). -/
def findCharIdx (t : Char) : List Char → Option ℕ
  | [] => none
  | c :: cs => if c = t then some 0 else (findCharIdx t cs).map (fun i => i + 1)

/-- First match of the lazy regex `/\[[\s\S]*?\]/` used by
quickReviewSelection (extension.js line 228): from the first opening
bracket to the first closing bracket after it. -/
def jsonMatchQuickL (cs : List Char) : Option (List Char) :=
  match findCharIdx '[' cs with
  | none => none
  | some i =>
      match findCharIdx ']' (cs.drop (i + 1)) with
      | none => none
      | some k => some ((cs.drop i).take (k + 2))

/-- Index of the last occurrence of a character. -/
def lastCharIdx (t : Char) (cs : List Char) : Option ℕ :=
  (findCharIdx t cs.reverse).map (fun r => cs.length - 1 - r)

/-- First match of the greedy regex `/\[[\s\S]*\]/` used by reviewCode
(extension.js line 1101): from the first opening bracket to the last
closing bracket after it. -/
def jsonMatchFullL (cs : List Char) : Option (List Char) :=
  match findCharIdx '[' cs with
  | none => none
  | some i =>
      match lastCharIdx ']' (cs.drop (i + 1)) with
      | none => none
      | some k => some ((cs.drop i).take (k + 2))

/-- `aiResponse.match(/\[[\s\S]*?\]/)` on a string. -/
def jsonMatchQuick (s : String) : Option String :=
  (jsonMatchQuickL s.toList).map String.mk

/-- `aiResponse.match(/\[[\s\S]*\]/)` on a string. -/
def jsonMatchFull (s : String) : Option String :=
  (jsonMatchFullL s.toList).map String.mk

/-- Whether the needle occurs as a prefix of the haystack. -/
def startsWithL : List Char → List Char → Bool
  | [], _ => true
  | _ :: _, [] => false
  | a :: as, b :: bs => a = b && startsWithL as bs

/-- Whether the needle occurs as a contiguous substring of the
haystack (JavaScript `String.prototype.includes`). -/
def containsSubL (needle : List Char) : List Char → Bool
  | [] => startsWithL needle []
  | c :: cs => startsWithL needle (c :: cs) || containsSubL needle cs

/-- JavaScript `hay.includes(needle)`. -/
def jsIncludes (hay needle : String) : Bool :=
  containsSubL needle.toList hay.toList

/-- JavaScript `s.toLowerCase()` (ASCII range; the keyword checks in
the code only involve ASCII). -/
def jsToLower (s : String) : String :=
  String.mk (s.toList.map Char.toLower)

/-- `v.length` for a truthy value, as read by the quality filter:
strings and arrays expose their length, plain objects their `length`
field if any, and other values yield `undefined`. -/
def jsLengthOf (v : Json) : Option Json :=
  getPropW v ("length")

/-- JavaScript `x > 10` on a property value: the operand is coerced
with ToNumber and a NaN comparison is false. -/
def jsGtTen (v : Json) : Bool :=
  match toNumber v with
  | some q => decide (q > 10)
  | none => false

/-- The quality-filter callback of quickReviewSelection (extension.js
lines 232-239):
`issue.message && issue.message.length > 10 &&
 !issue.message.toLowerCase().includes("comment") && ... ("naming")
 ... ("style")`.
Reading `message` on a null issue throws; calling `toLowerCase` on a
truthy non-string message that passed the length test also throws;
both propagate to the surrounding catch. -/
def quickKeep (issue : Json) : Except Unit Bool :=
  match getPropE (some issue) ("message") with
  | Except.error e => Except.error e
  | Except.ok m =>
      if truthy m = false then Except.ok false
      else
        match m with
        | none => Except.ok false
        | some v =>
            match jsLengthOf v with
            | none => Except.ok false
            | some lv =>
                if jsGtTen lv = false then Except.ok false
                else
                  match v with
                  | Json.str s =>
                      Except.ok (!(jsIncludes (jsToLower s) ("comment"))
                        && !(jsIncludes (jsToLower s) ("naming"))
                        && !(jsIncludes (jsToLower s) ("style")))
                  | _ => Except.error ()

/-- `parsed.filter(callback)`: the callback runs on the elements in
order and a thrown exception aborts the whole filter. -/
def quickFilterList : List Json → Except Unit (List Json)
  | [] => Except.ok []
  | x :: xs =>
      match quickKeep x with
      | Except.error e => Except.error e
      | Except.ok b =>
          match quickFilterList xs with
          | Except.error e => Except.error e
          | Except.ok rest => Except.ok (if b then x :: rest else rest)

/-- The `issues` variable of quickReviewSelection after its inner
try/catch (extension.js lines 225-243): empty when there is no regex
match, when JSON.parse throws, when the parsed value is not an array
(so that `.filter` throws), or when the filter callback throws;
otherwise the filtered issue list. -/
def quickIssuesOf (raw : String) : List Json :=
  match jsonMatchQuick raw with
  | none => []
  | some m =>
      match jsonParse m with
      | none => []
      | some (Json.arr xs) =>
          match quickFilterList xs with
          | Except.ok ys => ys
          | Except.error _ => []
      | some _ => []

/-- The `issues` variable of reviewCode after its inner try/catch
(extension.js lines 1098-1105): it keeps its initial `[]` when there
is no regex match or JSON.parse throws, and otherwise holds whatever
JSON.parse returned (with no array check; `issues.map` later throws
outside the inner try if this is not an array). -/
def reviewIssuesVal (raw : String) : Json :=
  match jsonMatchFull raw with
  | none => Json.arr []
  | some m =>
      match jsonParse m with
      | none => Json.arr []
      | some v => v

/-- The extraction stage of the quick path in isolation: the parsed
array (before the quality filter), if the regex match parses as one. -/
def extractedQuick (raw : String) : Option (List Json) :=
  match jsonMatchQuick raw with
  | none => none
  | some m =>
      match jsonParse m with
      | some (Json.arr xs) => some xs
      | _ => none

/-- The extraction stage of the full-review path in isolation. -/
def extractedFull (raw : String) : Option (List Json) :=
  match jsonMatchFull raw with
  | none => none
  | some m =>
      match jsonParse m with
      | some (Json.arr xs) => some xs
      | _ => none

/-- `Math.min` with NaN propagation. -/
def jsMin (a b : Option ℚ) : Option ℚ :=
  match a, b with
  | some x, some y => some (min x y)
  | _, _ => none

/-- `Math.max` with NaN propagation. -/
def jsMax (a b : Option ℚ) : Option ℚ :=
  match a, b with
  | some x, some y => some (max x y)
  | _, _ => none

/-- The Coordinate Mapper of both review paths (extension.js lines
251-257 and 1108-1111):
`Math.max(0, Math.min((issue.line || 1) - 1 + startLine,
document.lineCount - 1))`, where `startLine` is the absolute line of
the start of the reviewed excerpt.  The result is `none` when the
computation is NaN (a truthy `line` value that does not coerce to a
number). -/
def mapLine (lineField : Option Json) (startLine lineCount : ℕ) : Option ℚ :=
  jsMax (some 0)
    (jsMin ((toNumber (jsOr lineField (Json.num 1))).map
              (fun q => q - 1 + (startLine : ℚ)))
           (some ((lineCount : ℚ) - 1)))

/-- `document.lineAt(line)`: valid only for an integral line number
inside `[0, lineCount)`; any other argument (including NaN) throws. -/
def lineAtIdx (lineCount : ℕ) (x : Option ℚ) : Option ℕ :=
  match x with
  | none => none
  | some q =>
      if 0 ≤ q ∧ q < (lineCount : ℚ) ∧ q.den = 1 then some q.num.toNat else none

/-- Diagnostic severity levels of the editor API. -/
inductive DiagnosticSeverity where
  | Error : DiagnosticSeverity
  | Warning : DiagnosticSeverity
  | Information : DiagnosticSeverity
  | Hint : DiagnosticSeverity
deriving DecidableEq, Repr

/-- String strict-equality test `v === s` on a property value. -/
def isStrEq (v : Option Json) (s : String) : Bool :=
  match v with
  | some (Json.str t) => t = s
  | _ => false

/-- Severity mapping of the quick-review path (extension.js lines
260-262): Warning by default, Error for `"error"`.  There is no
`"info"` case on this path. -/
def sevQuick (v : Option Json) : DiagnosticSeverity :=
  if isStrEq v ("error") then DiagnosticSeverity.Error else DiagnosticSeverity.Warning

/-- Severity mapping of the full-review path (extension.js lines
1114-1118): Warning by default, Error for `"error"`, Information for
`"info"`. -/
def sevFull (v : Option Json) : DiagnosticSeverity :=
  if isStrEq v ("error") then DiagnosticSeverity.Error
  else if isStrEq v ("info") then DiagnosticSeverity.Information
  else DiagnosticSeverity.Warning

/-- A resolved diagnostic: the clamped whole-line range is represented
by its line index.  (JavaScript diagnostics are compared by object
identity in `applyAIFix`; in this model they are compared by value,
which no theorem below depends on since the branch performing that
comparison is unreachable for well-formed endpoint responses.) -/
structure Diagnostic where
  line : ℕ
  message : String
  severity : DiagnosticSeverity
  source : String
deriving DecidableEq, Repr

/-- Construction of one diagnostic from one raw issue (extension.js
lines 250-271 and 1107-1127): the clamped line is passed to
`document.lineAt` (which throws on NaN or a fractional value), the
message is prefixed with the robot emoji, and the severity is mapped
by the given path; reading a property of a null issue throws. -/
def mkDiag (sevOf : Option Json → DiagnosticSeverity) (startLine lineCount : ℕ)
    (issue : Json) : Except Unit Diagnostic := do
  let lf ← getPropE (some issue) ("line")
  match lineAtIdx lineCount (mapLine lf startLine lineCount) with
  | none => Except.error ()
  | some n => do
      let sf ← getPropE (some issue) ("severity")
      let mf ← getPropE (some issue) ("message")
      Except.ok
        { line := n
          message := ("🤖 ") ++ jsToDisplayOpt mf
          severity := sevOf sf
          source := ("AI Copilot") }

/-- `issues.map(...)` building diagnostics: element order is
preserved and a thrown exception aborts the whole map (and is caught
by the outer catch of the review command). -/
def buildDiags (sevOf : Option Json → DiagnosticSeverity) (startLine lineCount : ℕ) :
    List Json → Except Unit (List Diagnostic)
  | [] => Except.ok []
  | i :: is => do
      let d ← mkDiag sevOf startLine lineCount i
      let ds ← buildDiags sevOf startLine lineCount is
      Except.ok (d :: ds)

/-- The per-document diagnostic collection
(`vscode.languages.createDiagnosticCollection`), as a finite map from
document URI to the ordered diagnostic list. -/
abbrev DiagState := List (String × List Diagnostic)

/-- `diagnosticCollection.get(uri)`. -/
def dsGet (st : DiagState) (uri : String) : Option (List Diagnostic) :=
  (st.find? (fun p => p.1 == uri)).map (fun p => p.2)

/-- `diagnosticCollection.get(uri) || []`. -/
def dsGetD (st : DiagState) (uri : String) : List Diagnostic :=
  (dsGet st uri).getD []

/-- `diagnosticCollection.set(uri, ds)`. -/
def dsSet (st : DiagState) (uri : String) (ds : List Diagnostic) : DiagState :=
  (uri, ds) :: st.filter (fun p => !(p.1 == uri))

/-- A user-visible notification raised at the end of a command. -/
inductive Notice where
  | info (msg : String) : Notice
  | errMsg (msg : String) : Notice
deriving DecidableEq, Repr

def noCriticalIssuesMsg : String := "✅ No critical issues found!"

def reviewFailedMsg : String := "❌ Review failed"

def foundCriticalMsg (n : ℕ) : String :=
  ("🔍 Found ") ++ toString n ++ (" critical issue(s)")

def noIssuesMsg : String := "✅ No issues found!"

def foundIssuesMsg (n : ℕ) : String :=
  ("🔍 Found ") ++ toString n ++ (" issue(s)")

/-- One run of quickReviewSelection from a received model response
(extension.js lines 224-285): parse and filter issues; with no issues
report success and leave the collection alone; otherwise build the
diagnostics (a throw is caught and reported, leaving the collection
alone) and append them to the diagnostics already present for the
document. -/
def quickReviewStep (st : DiagState) (uri : String) (selStartLine lineCount : ℕ)
    (raw : String) : DiagState × Notice :=
  let issues := quickIssuesOf raw
  match issues with
  | [] => (st, Notice.info noCriticalIssuesMsg)
  | _ :: _ =>
      match buildDiags sevQuick selStartLine lineCount issues with
      | Except.error _ => (st, Notice.errMsg reviewFailedMsg)
      | Except.ok ds =>
          (dsSet st uri (dsGetD st uri ++ ds), Notice.info (foundCriticalMsg ds.length))

/-- One run of reviewCode from a received model response (extension.js
lines 1097-1143): parse issues; build the diagnostics (a throw — also
the `issues.map` TypeError when the parsed value is not an array — is
caught and reported, leaving the collection alone); then replace the
entire diagnostic list of the document with the new list, empty or
not. -/
def reviewCodeStep (st : DiagState) (uri : String) (startLine lineCount : ℕ)
    (raw : String) : DiagState × Notice :=
  match reviewIssuesVal raw with
  | Json.arr xs =>
      match buildDiags sevFull startLine lineCount xs with
      | Except.error _ => (st, Notice.errMsg reviewFailedMsg)
      | Except.ok ds =>
          (dsSet st uri ds,
           if ds.isEmpty then Notice.info noIssuesMsg
           else Notice.info (foundIssuesMsg ds.length))
  | _ => (st, Notice.errMsg reviewFailedMsg)

/-- `.trim()` called on a property value: only a string has the
method; on `undefined`, `null` or any non-string value the call throws
a TypeError. -/
def jsTrimE (v : Option Json) : Except Unit String :=
  match v with
  | some (Json.str s) => Except.ok s.trim
  | _ => Except.error ()

/-- The response access path of applyAIFix (extension.js line 373):
`response.data.candidates.content.parts.text.trim()` — note the array
properties `candidates` and `parts` are accessed without indices,
unlike the `candidates[0].content.parts[0].text` used by every other
request in the file. -/
def fixedCodeE (data : Json) : Except Unit String := do
  let c1 ← getPropE (some data) ("candidates")
  let c2 ← getPropE c1 ("content")
  let c3 ← getPropE c2 ("parts")
  let c4 ← getPropE c3 ("text")
  jsTrimE c4

/-- `line.match(/^[a-z]+$/)` is truthy: the whole line is one or more
lowercase ASCII letters. -/
def lowerWordLine (l : String) : Bool :=
  !l.isEmpty && l.toList.all (fun c => 'a' ≤ c && c ≤ 'z')

/-- The cleanup applied to the fixed code (extension.js lines
376-381): remove every backtick fence, drop lines that are bare
language names, rejoin and trim. -/
def cleanFixedCode (s : String) : String :=
  let s1 := String.join (s.splitOn ("```"))
  let kept := (s1.splitOn ("\n")).filter (fun l => !(lowerWordLine l))
  (String.intercalate ("\n") kept).trim

/-- Observable outcome of one applyAIFix run. -/
inductive FixOutcome where
  | applied (newText : String) : FixOutcome
  | failed : FixOutcome
  | inactive : FixOutcome
deriving DecidableEq, Repr

/-- One run of applyAIFix from a received endpoint response
(extension.js lines 362-404): compute the fixed code from the response
(a throw anywhere is caught and reported as a failed fix, leaving both
the document and the diagnostic collection untouched); if the target
document is the active one, apply the edit and remove the target
diagnostic from the collection; otherwise do nothing. -/
def applyAIFixStep (st : DiagState) (isActiveDoc : Bool) (uri : String)
    (diag : Diagnostic) (data : Json) : DiagState × FixOutcome :=
  match fixedCodeE data with
  | Except.error _ => (st, FixOutcome.failed)
  | Except.ok raw0 =>
      let fixedCode := cleanFixedCode raw0
      if isActiveDoc then
        let remaining : List Diagnostic :=
          match dsGet st uri with
          | none => []
          | some l => l.filter (fun d => !(d == diag))
        (dsSet st uri remaining, FixOutcome.applied fixedCode)
      else (st, FixOutcome.inactive)

/-- A part of a well-formed endpoint response carries a `text`
string. -/
def IsTextPart (p : Json) : Prop :=
  ∃ t : String, getPropW p ("text") = some (Json.str t)

/-- A well-formed candidate carries `content.parts`, a nonempty array
of text parts. -/
def CandidateOk (c : Json) : Prop :=
  ∃ cont, getPropW c ("content") = some cont ∧
    ∃ ps : List Json, getPropW cont ("parts") = some (Json.arr ps) ∧
      ps ≠ [] ∧ ∀ p ∈ ps, IsTextPart p

/-- The documented successful response shape of the completion
endpoint: a nonempty `candidates` array whose elements carry
`content.parts` arrays of text parts (the shape consumed by
`response.data.candidates[0].content.parts[0].text` everywhere else in
extension.js). -/
def WellFormedResp (data : Json) : Prop :=
  ∃ cs : List Json, getPropW data ("candidates") = some (Json.arr cs) ∧
    cs ≠ [] ∧ ∀ c ∈ cs, CandidateOk c

/-- One turn of the chat transcript kept in `conversationHistory`. -/
structure ChatTurn where
  role : String
  text : String
deriving DecidableEq, Repr

/-- Messages the extension host posts to the chat webview (the
transcript-affecting subset). -/
inductive WebMsg where
  | aiResponse (text : String) : WebMsg
  | streamStopped (text : String) : WebMsg
  | errorMsg (text : String) : WebMsg
  | clearMsg : WebMsg
deriving DecidableEq, Repr

/-- The cancellation notice text of the stopStream handler
(extension.js line 473). -/
def cancelNoticeText : String := "\n\n_[Response stopped by user]_"

/-- Chat session state: the conversation history, the stream
controller slot (`currentStreamController`), and the messages posted
to the webview. -/
structure ChatState where
  history : List ChatTurn
  controller : Option Unit
  posted : List WebMsg
deriving DecidableEq, Repr

/-- Events driving the chat session.  A request is split into its
start (the user turn is pushed optimistically before the network call,
extension.js lines 972-975) and its asynchronous completion or
failure; `stop` is the stopStream webview message; `clear` is the
clearChat webview message. -/
inductive ChatEvent where
  | send (m : String) : ChatEvent
  | complete (r : String) : ChatEvent
  | fail (e : String) : ChatEvent
  | stop : ChatEvent
  | clear : ChatEvent

/-- The handler of one chat event (extension.js lines 458-478 and
938-1004).  Note that `handleChatMessage` never assigns
`currentStreamController` and passes no abort signal to the request
(lines 977-989), so the `send` case leaves the controller slot
untouched; the `stop` case aborts and posts the cancellation notice
only when a controller is present (lines 467-477). -/
def chatStep (st : ChatState) : ChatEvent → ChatState
  | ChatEvent.send m =>
      { st with history := st.history ++ [{ role := ("user"), text := m }] }
  | ChatEvent.complete r =>
      { st with
          history := st.history ++ [{ role := ("assistant"), text := r }]
          posted := st.posted ++ [WebMsg.aiResponse r] }
  | ChatEvent.fail e =>
      { st with posted := st.posted ++ [WebMsg.errorMsg e] }
  | ChatEvent.stop =>
      match st.controller with
      | some _ =>
          { st with
              controller := none
              posted := st.posted ++ [WebMsg.streamStopped cancelNoticeText] }
      | none => st
  | ChatEvent.clear =>
      { st with history := [], posted := st.posted ++ [WebMsg.clearMsg] }

/-- The initial chat state of a fresh session. -/
def chatInit : ChatState :=
  { history := [], controller := none, posted := [] }

/-- Run a sequence of chat events from the initial state. -/
def chatRun (es : List ChatEvent) : ChatState :=
  es.foldl chatStep chatInit

/-- Modelled from the spec wording of the Coordinate Mapper rule
(spec §4.4), for comparison with `mapLine`: the issue line with the
default of 1 applied when `line` is missing or non-numeric. -/
def lineOrDefaultSpec (lineField : Option Json) : ℚ :=
  match lineField with
  | some (Json.num q) => if q = 0 then 1 else q
  | _ => 1

/-- Modelled from the spec wording of the Coordinate Mapper rule
(spec §4.4), for comparison with `mapLine`:
`clamp(line_or_default(1) - 1 + excerptStartLine, 0,
documentLineCount - 1)`. -/
def clampSpec (lineField : Option Json) (startLine lineCount : ℕ) : ℚ :=
  max 0 (min (lineOrDefaultSpec lineField - 1 + (startLine : ℚ)) ((lineCount : ℚ) - 1))

/-- Whether a possibly-NaN line value lies within `[0, lineCount)`. -/
def lineInRange (x : Option ℚ) (lineCount : ℕ) : Bool :=
  match x with
  | some q => decide (0 ≤ q) && decide (q < (lineCount : ℚ))
  | none => false

/-- The discard predicate exactly as the claim words it, for
comparison with the quality filter: message shorter than 10
characters, or lowercased message containing a low-value keyword. -/
def specDiscardMsg (s : String) : Bool :=
  decide (s.length < 10)
    || jsIncludes (jsToLower s) ("comment")
    || jsIncludes (jsToLower s) ("naming")
    || jsIncludes (jsToLower s) ("style")

/-- Whether an issue carries a string `message` property (readable
without throwing). -/
def isStrMsg (x : Json) : Bool :=
  match getPropE (some x) ("message") with
  | Except.ok (some (Json.str _)) => true
  | _ => false

/-- The keep predicate the quality filter actually computes on issues
with a string message: length strictly greater than 10 and no
low-value keyword in the lowercased message. -/
def amendKeep (x : Json) : Bool :=
  match getPropE (some x) ("message") with
  | Except.ok (some (Json.str s)) =>
      decide (s.length > 10)
        && !(jsIncludes (jsToLower s) ("comment"))
        && !(jsIncludes (jsToLower s) ("naming"))
        && !(jsIncludes (jsToLower s) ("style"))
  | _ => false

/-- A well-formed endpoint response: one candidate with one text
part. -/
def respSample : Json :=
  Json.obj [(("candidates"),
    Json.arr [Json.obj [(("content"),
      Json.obj [(("parts"),
        Json.arr [Json.obj [(("text"), Json.str ("const x = 1;"))]])])]])]

/-- A diagnostic present in the collection before a fix attempt. -/
def diagSample : Diagnostic :=
  { line := 2
    message := ("🤖 Possible null dereference")
    severity := DiagnosticSeverity.Error
    source := ("AI Copilot") }

/-- A diagnostic collection holding `diagSample` for one document. -/
def stSample : DiagState := [(("file.js"), [diagSample])]

/-- An event trace in which the user cancels while the request is
outstanding and the request later completes. -/
def cancelTrace : List ChatEvent :=
  [ChatEvent.send ("hi"), ChatEvent.stop, ChatEvent.complete ("Here is my reply")]

/- ------------------------------------------------------------------
Helper lemmas
------------------------------------------------------------------ -/

theorem dsGetD_dsSet (st : DiagState) (uri : String) (ds : List Diagnostic) :
    dsGetD (dsSet st uri ds) uri = ds := by
  simp [dsGetD, dsGet, dsSet, List.find?]

theorem findCharIdx_first (t : Char) (p r : List Char) (hp : t ∉ p) :
    findCharIdx t (p ++ t :: r) = some p.length := by
  induction p with
  | nil => simp [findCharIdx]
  | cons c cs ih =>
      have hc : ¬(c = t) := by
        intro h
        exact hp (by simp [h])
      have hcs : t ∉ cs := fun h => hp (List.mem_cons_of_mem _ h)
      simp [findCharIdx, hc, ih hcs]

theorem drop_len_cons (p r : List Char) (c : Char) :
    (p ++ c :: r).drop p.length = c :: r := by
  induction p with
  | nil => simp
  | cons x xs ih => simp [ih]

theorem drop_len_succ_cons (p r : List Char) (c : Char) :
    (p ++ c :: r).drop (p.length + 1) = r := by
  induction p with
  | nil => simp
  | cons x xs ih => simp [ih]

theorem take_len_succ_cons (p r : List Char) (c : Char) :
    (p ++ c :: r).take (p.length + 1) = p ++ [c] := by
  induction p with
  | nil => simp
  | cons x xs ih => simp [ih]

theorem lastCharIdx_last (t : Char) (mid q : List Char)
    (hq : t ∉ q) :
    lastCharIdx t (mid ++ t :: q) = some mid.length := by
  have hrev : (mid ++ t :: q).reverse = q.reverse ++ t :: mid.reverse := by
    simp
  have hql : t ∉ q.reverse := by
    intro h
    exact hq (List.mem_reverse.mp h)
  have hfind : findCharIdx t ((mid ++ t :: q).reverse) = some q.reverse.length := by
    rw [hrev]
    exact findCharIdx_first t q.reverse mid.reverse hql
  have hlen : (mid ++ t :: q).length - 1 - q.reverse.length = mid.length := by
    simp [List.length_append]
  unfold lastCharIdx
  rw [hfind, Option.map_some', hlen]

theorem lineOrDefaultSpec_falsy (lf : Option Json) (hf : truthy lf = false) :
    lineOrDefaultSpec lf = 1 := by
  cases lf with
  | none => rfl
  | some w =>
      cases w with
      | null => rfl
      | bool b => rfl
      | num q =>
          have hq : q = 0 := by simpa [truthy] using hf
          simp [lineOrDefaultSpec, hq]
      | str s => rfl
      | arr xs => rfl
      | obj fs => rfl

/-- C1 (amended): for every raw issue whose `line` value is a number
or is falsy (missing, null, false, zero, or the empty string — which
the code defaults to 1), the Coordinate Mapper output equals
`clamp(line_or_default(1) - 1 + excerptStartLine, 0,
documentLineCount - 1)` and lies within `[0, documentLineCount)`, for
every document with at least one line.  (The original claim extends
this to every non-numeric `line`; see the counterexample: a truthy
non-numeric `line` such as the string `abc` is not defaulted by
`issue.line || 1` and the coercion produces NaN.) -/
theorem c1_mapper_clamped (lineField : Option Json) (startLine lineCount : ℕ)
    (hc : 1 ≤ lineCount)
    (h : truthy lineField = false ∨ ∃ q : ℚ, lineField = some (Json.num q)) :
    mapLine lineField startLine lineCount = some (clampSpec lineField startLine lineCount)
    ∧ 0 ≤ clampSpec lineField startLine lineCount
    ∧ clampSpec lineField startLine lineCount < (lineCount : ℚ) := by
  have hnum : toNumber (jsOr lineField (Json.num 1)) = some (lineOrDefaultSpec lineField) := by
    rcases h with hf | ⟨q, rfl⟩
    · have hOr : jsOr lineField (Json.num 1) = Json.num 1 := by
        cases lineField with
        | none => rfl
        | some w => simp [jsOr, hf]
      rw [hOr, lineOrDefaultSpec_falsy lineField hf]
      rfl
    · by_cases hq : q = 0
      · subst hq
        simp [jsOr, truthy, lineOrDefaultSpec, toNumber]
      · simp [jsOr, truthy, hq, lineOrDefaultSpec, toNumber]
  have hc' : (1 : ℚ) ≤ (lineCount : ℚ) := by exact_mod_cast hc
  refine ⟨?_, ?_, ?_⟩
  · simp [mapLine, hnum, jsMin, jsMax, clampSpec]
  · exact le_max_left 0 _
  · simp only [clampSpec]
    apply max_lt
    · linarith
    · have hmin :
          min (lineOrDefaultSpec lineField - 1 + (startLine : ℚ)) ((lineCount : ℚ) - 1)
            ≤ (lineCount : ℚ) - 1 := min_le_right _ _
      linarith

theorem c1_mapper_clamped_witness :
    mapLine (some (Json.num 50)) 2 5 = some (clampSpec (some (Json.num 50)) 2 5) :=
  (c1_mapper_clamped (some (Json.num 50)) 2 5 (by decide) (Or.inr ⟨50, rfl⟩)).1

/-- C1 counterexample: the issue line `"abc"` is non-numeric, so the
claim asserts the mapper output equals the in-range clamp value 4; the
code instead computes `("abc" || 1) - 1 + 4` = NaN (modelled `none`),
which is not within `[0, 10)` — `document.lineAt` then throws. -/
theorem c1_mapper_counterexample :
    mapLine (some (Json.str ("abc"))) 4 10 = none
    ∧ lineInRange (mapLine (some (Json.str ("abc"))) 4 10) 10 = false
    ∧ clampSpec (some (Json.str ("abc"))) 4 10 = 4 := by
  refine ⟨?_, ?_, ?_⟩ <;> with_unfolding_all rfl

/-- C2: on both review paths, whenever the regex finds no bracketed
substring or the extracted substring fails JSON parsing, the parser
yields an empty issue list, no exception escapes (the catch absorbs
it), and the outcome surfaced to the user is an informational
message, not an error. -/
theorem c2_parser_malformed_empty (raw : String) :
    ((jsonMatchQuick raw = none ∨ ∃ m, jsonMatchQuick raw = some m ∧ jsonParse m = none) →
      quickIssuesOf raw = []
      ∧ ∀ (st : DiagState) (uri : String) (s c : ℕ),
          quickReviewStep st uri s c raw = (st, Notice.info noCriticalIssuesMsg))
    ∧ ((jsonMatchFull raw = none ∨ ∃ m, jsonMatchFull raw = some m ∧ jsonParse m = none) →
      reviewIssuesVal raw = Json.arr []
      ∧ ∀ (st : DiagState) (uri : String) (s c : ℕ),
          reviewCodeStep st uri s c raw = (dsSet st uri [], Notice.info noIssuesMsg)) := by
  constructor
  · intro h
    have hq : quickIssuesOf raw = [] := by
      rcases h with h1 | ⟨m, hm, hp⟩
      · simp [quickIssuesOf, h1]
      · simp [quickIssuesOf, hm, hp]
    refine ⟨hq, ?_⟩
    intro st uri s c
    simp [quickReviewStep, hq]
  · intro h
    have hr : reviewIssuesVal raw = Json.arr [] := by
      rcases h with h1 | ⟨m, hm, hp⟩
      · simp [reviewIssuesVal, h1]
      · simp [reviewIssuesVal, hm, hp]
    refine ⟨hr, ?_⟩
    intro st uri s c
    simp [reviewCodeStep, hr, buildDiags]

theorem c2_parser_malformed_empty_witness :
    quickIssuesOf ("No issues found, code looks good!") = []
    ∧ quickReviewStep [] ("file.js") 0 3 ("No issues found, code looks good!")
        = ([], Notice.info noCriticalIssuesMsg) := by
  have h := (c2_parser_malformed_empty ("No issues found, code looks good!")).1
    (Or.inl (by with_unfolding_all rfl))
  exact ⟨h.1, h.2 [] ("file.js") 0 3⟩

/-- C3 counterexample: the raw text `hi [a] x [2]` contains the
syntactically valid JSON array `[2]`, yet both parsers extract a
different bracketed substring (`[a]` on the lazy quick path, 
`[a] x [2]` on the greedy full path), fail to parse it, and yield no
issues at all — not the one issue of that array. -/
theorem c3_parser_extraction_counterexample :
    ("hi [a] x [2]") = ("hi [a] x ") ++ ("[2]")
    ∧ jsonParse ("[2]") = some (Json.arr [Json.num 2])
    ∧ jsonMatchQuick ("hi [a] x [2]") = some ("[a]")
    ∧ jsonMatchFull ("hi [a] x [2]") = some ("[a] x [2]")
    ∧ extractedQuick ("hi [a] x [2]") = none
    ∧ extractedFull ("hi [a] x [2]") = none
    ∧ quickIssuesOf ("hi [a] x [2]") = []
    ∧ reviewIssuesVal ("hi [a] x [2]") = Json.arr [] := by
  refine ⟨?_, ?_, ?_, ?_, ?_, ?_, ?_, ?_⟩ <;> with_unfolding_all rfl

/-- C3 (amended): if the raw text decomposes as prose, then a
bracketed substring, then prose — with no opening bracket in the
leading prose, no closing bracket inside the brackets, and no closing
bracket in the trailing prose — and the bracketed substring is a valid
JSON array, then both the lazy quick-path regex and the greedy
full-path regex extract exactly that substring, and the parser yields
its issues in array order.  (The original claim promises this for a
valid array embedded in arbitrary text; the counterexample shows stray
brackets in the surrounding prose, or nested brackets, break it.) -/
theorem c3_parser_extraction_amended (p mid q : List Char) (xs : List Json)
    (hp : '[' ∉ p) (hm : ']' ∉ mid) (hq : ']' ∉ q)
    (hparse : jsonParse (String.mk ('[' :: (mid ++ [']']))) = some (Json.arr xs)) :
    extractedQuick (String.mk (p ++ '[' :: (mid ++ ']' :: q))) = some xs
    ∧ extractedFull (String.mk (p ++ '[' :: (mid ++ ']' :: q))) = some xs := by
  have hsl : (String.mk (p ++ '[' :: (mid ++ ']' :: q))).toList
      = p ++ '[' :: (mid ++ ']' :: q) := rfl
  have h1 : findCharIdx '[' (p ++ '[' :: (mid ++ ']' :: q)) = some p.length :=
    findCharIdx_first '[' p (mid ++ ']' :: q) hp
  have h2 : (p ++ '[' :: (mid ++ ']' :: q)).drop (p.length + 1) = mid ++ ']' :: q :=
    drop_len_succ_cons p (mid ++ ']' :: q) '['
  have h3 : findCharIdx ']' (mid ++ ']' :: q) = some mid.length :=
    findCharIdx_first ']' mid q hm
  have h3' : lastCharIdx ']' (mid ++ ']' :: q) = some mid.length :=
    lastCharIdx_last ']' mid q hq
  have h4 : (p ++ '[' :: (mid ++ ']' :: q)).drop p.length = '[' :: (mid ++ ']' :: q) :=
    drop_len_cons p (mid ++ ']' :: q) '['
  have h5 : ('[' :: (mid ++ ']' :: q)).take (mid.length + 2) = '[' :: (mid ++ [']']) := by
    rw [show mid.length + 2 = (mid.length + 1) + 1 from rfl, List.take_succ_cons,
      take_len_succ_cons]
  have hmq : jsonMatchQuick (String.mk (p ++ '[' :: (mid ++ ']' :: q)))
      = some (String.mk ('[' :: (mid ++ [']']))) := by
    simp [jsonMatchQuick, jsonMatchQuickL, hsl, h1, h2, h3, h4, h5]
  have hmf : jsonMatchFull (String.mk (p ++ '[' :: (mid ++ ']' :: q)))
      = some (String.mk ('[' :: (mid ++ [']']))) := by
    simp [jsonMatchFull, jsonMatchFullL, hsl, h1, h2, h3', h4, h5]
  constructor
  · simp [extractedQuick, hmq, hparse]
  · simp [extractedFull, hmf, hparse]

theorem c3_parser_extraction_amended_witness :
    extractedQuick (String.mk ((("Here ").toList) ++ '[' ::
        ((("1, 2").toList) ++ ']' :: ((" done").toList))))
      = some [Json.num 1, Json.num 2]
    ∧ extractedFull (String.mk ((("Here ").toList) ++ '[' ::
        ((("1, 2").toList) ++ ']' :: ((" done").toList))))
      = some [Json.num 1, Json.num 2] :=
  c3_parser_extraction_amended (("Here ").toList) (("1, 2").toList) ((" done").toList)
    [Json.num 1, Json.num 2]
    (by with_unfolding_all decide) (by with_unfolding_all decide)
    (by with_unfolding_all decide) (by with_unfolding_all rfl)

/-- C4: a full review pass replaces the entire diagnostic list of the
document with the newly produced list — independently of whatever any
prior pass left there — so running it twice with identical model
output leaves exactly one copy of each diagnostic. -/
theorem c4_full_review_replace (st : DiagState) (uri : String) (s c : ℕ) (raw : String)
    (xs : List Json) (ds : List Diagnostic)
    (hx : reviewIssuesVal raw = Json.arr xs)
    (hb : buildDiags sevFull s c xs = Except.ok ds) :
    dsGetD ((reviewCodeStep st uri s c raw).1) uri = ds
    ∧ dsGetD ((reviewCodeStep (reviewCodeStep st uri s c raw).1 uri s c raw).1) uri = ds := by
  have hstep : ∀ st' : DiagState, (reviewCodeStep st' uri s c raw).1 = dsSet st' uri ds := by
    intro st'
    simp [reviewCodeStep, hx, hb]
  constructor
  · rw [hstep st, dsGetD_dsSet]
  · rw [hstep st, hstep (dsSet st uri ds), dsGetD_dsSet]

theorem c4_full_review_replace_witness :
    dsGetD ((reviewCodeStep
        (reviewCodeStep [(("file.js"),
            [{ line := 9
               message := ("🤖 stale")
               severity := DiagnosticSeverity.Warning
               source := ("AI Copilot") }])]
          ("file.js") 0 3 ("[\x7b\"line\": 1, \"message\": \"bad call\", \"severity\": \"error\"\x7d]")).1
        ("file.js") 0 3 ("[\x7b\"line\": 1, \"message\": \"bad call\", \"severity\": \"error\"\x7d]")).1)
      ("file.js")
      = [{ line := 0
           message := ("🤖 bad call")
           severity := DiagnosticSeverity.Error
           source := ("AI Copilot") }] :=
  (c4_full_review_replace _ ("file.js") 0 3
    ("[\x7b\"line\": 1, \"message\": \"bad call\", \"severity\": \"error\"\x7d]")
    _ _ (by with_unfolding_all rfl) (by with_unfolding_all rfl)).2

/-- C5: a quick review pass appends its newly produced diagnostics
after the diagnostics already present for the document, without any
deduplication, so running it twice with identical input appends two
equal-content batches while keeping everything previously present
intact. -/
theorem c5_quick_review_append (st : DiagState) (uri : String) (s c : ℕ) (raw : String)
    (ds : List Diagnostic)
    (hb : buildDiags sevQuick s c (quickIssuesOf raw) = Except.ok ds) :
    dsGetD ((quickReviewStep st uri s c raw).1) uri = dsGetD st uri ++ ds
    ∧ dsGetD ((quickReviewStep (quickReviewStep st uri s c raw).1 uri s c raw).1) uri
        = dsGetD st uri ++ ds ++ ds := by
  cases his : quickIssuesOf raw with
  | nil =>
      rw [his] at hb
      simp [buildDiags] at hb
      subst hb
      simp [quickReviewStep, his]
  | cons x xs =>
      rw [his] at hb
      have hstep : ∀ st' : DiagState,
          (quickReviewStep st' uri s c raw).1 = dsSet st' uri (dsGetD st' uri ++ ds) := by
        intro st'
        simp [quickReviewStep, his, hb]
      constructor
      · rw [hstep st, dsGetD_dsSet]
      · rw [hstep st, hstep (dsSet st uri (dsGetD st uri ++ ds)), dsGetD_dsSet, dsGetD_dsSet]

theorem c5_quick_review_append_witness :
    dsGetD ((quickReviewStep
        (quickReviewStep [(("file.js"),
            [{ line := 9
               message := ("🤖 earlier finding")
               severity := DiagnosticSeverity.Warning
               source := ("AI Copilot") }])]
          ("file.js") 2 20 ("[\x7b\"line\": 1, \"message\": \"dangerous buffer overflow\", \"severity\": \"error\"\x7d]")).1
        ("file.js") 2 20 ("[\x7b\"line\": 1, \"message\": \"dangerous buffer overflow\", \"severity\": \"error\"\x7d]")).1)
      ("file.js")
      = [{ line := 9
           message := ("🤖 earlier finding")
           severity := DiagnosticSeverity.Warning
           source := ("AI Copilot") },
         { line := 2
           message := ("🤖 dangerous buffer overflow")
           severity := DiagnosticSeverity.Error
           source := ("AI Copilot") },
         { line := 2
           message := ("🤖 dangerous buffer overflow")
           severity := DiagnosticSeverity.Error
           source := ("AI Copilot") }] :=
 by
  have h := (c5_quick_review_append [(("file.js"),
      [{ line := 9
         message := ("🤖 earlier finding")
         severity := DiagnosticSeverity.Warning
         source := ("AI Copilot") }])]
    ("file.js") 2 20
    ("[\x7b\"line\": 1, \"message\": \"dangerous buffer overflow\", \"severity\": \"error\"\x7d]")
    [{ line := 2
       message := ("🤖 dangerous buffer overflow")
       severity := DiagnosticSeverity.Error
       source := ("AI Copilot") }] (by with_unfolding_all rfl)).2
  with_unfolding_all exact h

/-- C6 (code bug evaluation): with a well-formed endpoint response,
an active target document, and the target diagnostic present in the
collection, applyAIFix throws on
`response.data.candidates.content.parts.text` before reaching the edit
or the removal, so the outcome is the failure message and the
diagnostic collection is left exactly as it was — the diagnostic is
never removed. -/
theorem c6_apply_fix_removal_unreachable :
    applyAIFixStep stSample true ("file.js") diagSample respSample
      = (stSample, FixOutcome.failed)
    ∧ dsGetD stSample ("file.js") = [diagSample] := by
  refine ⟨?_, ?_⟩ <;> with_unfolding_all rfl

/-- C10: for every endpoint response of the documented successful
shape, the applyAIFix access path
`response.data.candidates.content.parts.text` reads `content` on the
candidates *array* (yielding undefined) and then `parts` on undefined,
which throws; the catch reports the failure, and neither the document
text nor the diagnostic collection is modified — the fix success
branch is unreachable for well-formed responses. -/
theorem c10_fix_path_throws_on_wellformed (data : Json) (st : DiagState)
    (active : Bool) (uri : String) (diag : Diagnostic)
    (h : WellFormedResp data) :
    fixedCodeE data = Except.error ()
    ∧ applyAIFixStep st active uri diag data = (st, FixOutcome.failed) := by
  obtain ⟨cs, hcs, -, -⟩ := h
  have hdata : getPropE (some data) ("candidates") = Except.ok (some (Json.arr cs)) := by
    cases data with
    | null => simp [getPropW] at hcs
    | bool b => simp [getPropE, hcs]
    | num q => simp [getPropE, hcs]
    | str s => simp [getPropE, hcs]
    | arr xs => simp [getPropE, hcs]
    | obj fs => simp [getPropE, hcs]
  have hfix : fixedCodeE data = Except.error () := by
    rw [fixedCodeE, hdata]
    with_unfolding_all rfl
  exact ⟨hfix, by simp [applyAIFixStep, hfix]⟩

theorem c10_fix_path_throws_on_wellformed_witness :
    fixedCodeE respSample = Except.error ()
    ∧ applyAIFixStep [] false ("other.js") diagSample respSample
      = ([], FixOutcome.failed) :=
  c10_fix_path_throws_on_wellformed respSample [] false ("other.js") diagSample
    ⟨[Json.obj [(("content"),
        Json.obj [(("parts"),
          Json.arr [Json.obj [(("text"), Json.str ("const x = 1;"))]])])]],
      by with_unfolding_all rfl,
      by simp,
      by
        intro c hc
        simp only [List.mem_singleton] at hc
        subst hc
        exact ⟨Json.obj [(("parts"),
            Json.arr [Json.obj [(("text"), Json.str ("const x = 1;"))]])],
          by with_unfolding_all rfl,
          [Json.obj [(("text"), Json.str ("const x = 1;"))]],
          by with_unfolding_all rfl,
          by simp,
          by
            intro p hp
            simp only [List.mem_singleton] at hp
            subst hp
            exact ⟨("const x = 1;"), by with_unfolding_all rfl⟩⟩⟩

/-- C7 (code bug evaluation): `currentStreamController` is never
assigned, so cancelling while a request is outstanding posts no
cancellation notice (the stop handler is a no-op) and, when the
outstanding request later completes, its reply is still appended to
the conversation history as an assistant turn. -/
theorem c7_cancel_ineffective :
    (chatRun cancelTrace).history
      = [{ role := ("user"), text := ("hi") },
         { role := ("assistant"), text := ("Here is my reply") }]
    ∧ (chatRun cancelTrace).posted = [WebMsg.aiResponse ("Here is my reply")]
    ∧ (chatRun cancelTrace).controller = none := by
  refine ⟨?_, ?_, ?_⟩ <;> rfl

theorem jsGtTen_natlen (n : ℕ) : jsGtTen (Json.num (n : ℚ)) = decide (n > 10) := by
  have h : ((n : ℚ) > 10) ↔ (n > 10) := by exact_mod_cast Iff.rfl
  simp [jsGtTen, toNumber, h]

theorem quickKeep_strMsg (x : Json) (s : String)
    (hs : getPropE (some x) ("message") = Except.ok (some (Json.str s))) :
    quickKeep x = Except.ok (amendKeep x) := by
  by_cases hse : s = ""
  · subst hse
    simp [quickKeep, hs, truthy, amendKeep]
  · have ht : truthy (some (Json.str s)) = true := by simp [truthy, hse]
    have hlv : jsLengthOf (Json.str s) = some (Json.num (s.length : ℚ)) := by
      simp [jsLengthOf, getPropW]
    by_cases hlen : s.length > 10
    · simp [quickKeep, hs, ht, hlv, jsGtTen_natlen, hlen, amendKeep]
    · simp [quickKeep, hs, ht, hlv, jsGtTen_natlen, hlen, amendKeep]

theorem isStrMsg_exists (x : Json) (hx : isStrMsg x = true) :
    ∃ s, getPropE (some x) ("message") = Except.ok (some (Json.str s)) := by
  unfold isStrMsg at hx
  cases hgp : getPropE (some x) ("message") with
  | error e =>
      rw [hgp] at hx
      exact absurd hx (by simp)
  | ok m =>
      rw [hgp] at hx
      cases m with
      | none => exact absurd hx (by simp)
      | some v =>
          cases v with
          | str t => exact ⟨t, rfl⟩
          | null => exact absurd hx (by simp)
          | bool b => exact absurd hx (by simp)
          | num q => exact absurd hx (by simp)
          | arr a => exact absurd hx (by simp)
          | obj o => exact absurd hx (by simp)

/-- C8 counterexample: the message `0123456789` has exactly 10
characters and contains no low-value keyword, so the claim says the
issue is kept; the filter requires `length > 10` and discards it. -/
theorem c8_quality_filter_counterexample :
    specDiscardMsg ("0123456789") = false
    ∧ quickKeep (Json.obj [(("message"), Json.str ("0123456789"))]) = Except.ok false
    ∧ quickIssuesOf ("[\x7b\"message\": \"0123456789\"\x7d]") = [] := by
  refine ⟨?_, ?_, ?_⟩ <;> with_unfolding_all rfl

/-- C8 (amended): on the quick-review path, for parsed issues whose
`message` is a string, the quality filter keeps exactly those whose
message is strictly longer than 10 characters (not: at least 10) and
whose lowercased message contains none of `comment`, `naming`,
`style`; the kept issues appear in their original order.  (The
original claim words the discard condition as `shorter than 10
characters`; see the counterexample at exactly 10.) -/
theorem c8_quality_filter_amended (xs : List Json)
    (h : ∀ x ∈ xs, isStrMsg x = true) :
    quickFilterList xs = Except.ok (xs.filter amendKeep) := by
  induction xs with
  | nil => rfl
  | cons x rest ih =>
      obtain ⟨s, hs⟩ := isStrMsg_exists x (h x (by simp))
      have hrest := ih (fun y hy => h y (by simp [hy]))
      rw [quickFilterList, quickKeep_strMsg x s hs, hrest]
      simp [List.filter_cons]

theorem c8_quality_filter_amended_witness :
    quickFilterList
        [Json.obj [(("message"), Json.str ("a dangerous buffer overflow"))],
         Json.obj [(("message"), Json.str ("bad style"))],
         Json.obj [(("message"), Json.str ("unchecked array index used"))]]
      = Except.ok
        [Json.obj [(("message"), Json.str ("a dangerous buffer overflow"))],
         Json.obj [(("message"), Json.str ("unchecked array index used"))]] := by
  have h := c8_quality_filter_amended
    [Json.obj [(("message"), Json.str ("a dangerous buffer overflow"))],
     Json.obj [(("message"), Json.str ("bad style"))],
     Json.obj [(("message"), Json.str ("unchecked array index used"))]]
    (by
      intro x hx
      simp only [List.mem_cons, List.not_mem_nil, or_false] at hx
      rcases hx with rfl | rfl | rfl <;> with_unfolding_all rfl)
  with_unfolding_all exact h

/-- C9 counterexample: the claim asserts `"info"` maps to Information
on every review path that constructs diagnostics, but the quick-review
path has no `"info"` case and maps it to Warning — including in a
fully constructed diagnostic. -/
theorem c9_severity_counterexample :
    sevQuick (some (Json.str ("info"))) = DiagnosticSeverity.Warning
    ∧ decide (DiagnosticSeverity.Warning = DiagnosticSeverity.Information) = false
    ∧ buildDiags sevQuick 0 5
        [Json.obj [(("line"), Json.num 1),
                   (("message"), Json.str ("a serious vulnerability")),
                   (("severity"), Json.str ("info"))]]
      = Except.ok [{ line := 0
                     message := ("🤖 a serious vulnerability")
                     severity := DiagnosticSeverity.Warning
                     source := ("AI Copilot") }] := by
  refine ⟨rfl, rfl, ?_⟩
  with_unfolding_all rfl

/-- C9 (amended): the severity mapping is total and never fails on
both review paths, and on the full-review path it is exactly the
claimed mapping; but the quick-review path has no Information case:
it maps `"error"` to Error and every other value — `"info"`
included — to Warning. -/
theorem c9_severity_mapping_amended (v : Option Json) :
    sevFull (some (Json.str ("error"))) = DiagnosticSeverity.Error
    ∧ sevFull (some (Json.str ("info"))) = DiagnosticSeverity.Information
    ∧ (isStrEq v ("error") = false → isStrEq v ("info") = false →
        sevFull v = DiagnosticSeverity.Warning)
    ∧ sevQuick (some (Json.str ("error"))) = DiagnosticSeverity.Error
    ∧ (isStrEq v ("error") = false → sevQuick v = DiagnosticSeverity.Warning) := by
  refine ⟨rfl, rfl, ?_, rfl, ?_⟩
  · intro h1 h2
    simp [sevFull, h1, h2]
  · intro h1
    simp [sevQuick, h1]

theorem c9_severity_mapping_amended_witness :
    sevFull (some (Json.str ("warning"))) = DiagnosticSeverity.Warning
    ∧ sevQuick none = DiagnosticSeverity.Warning :=
  ⟨(c9_severity_mapping_amended (some (Json.str ("warning")))).2.2.1
      (by with_unfolding_all rfl) (by with_unfolding_all rfl),
   (c9_severity_mapping_amended none).2.2.2.2 rfl⟩
